import Mathlib

/-!
Verification of the workflow-handler repository's ingestion endpoint
(`src/app/api/interactions/route.ts`) and, modelled from the specification,
the workflow-extraction pipeline stages that the repository invokes
(`src/server/python/group_flows.py`, not present in the repository slice).

The HTTP layer is shallowly embedded: a request body is `Option Json`
(`none` models a body that is not parseable JSON, in which case
`request.json()` throws), the zod schemas `EventSchema` / `BatchSchema`
become `parseEvent` / `parseBatch`, and the `POST` handler becomes a total
function from the body, the venv-existence check and the eventual outcome
of the spawned pipeline process to the produced response, spawn call and
console logs.
-/

namespace WorkflowHandler

/-- JSON values as produced by `JSON.parse` / consumed by `JSON.stringify`.
Numbers are modelled as integers: the schema checks only the numeric tag,
never a number's value. -/
inductive Json : Type where
  | null : Json
  | bool (b : Bool) : Json
  | num (n : Int) : Json
  | str (s : String) : Json
  | arr (elems : List Json) : Json
  | obj (fields : List (String × Json)) : Json

/-- Property lookup on a JSON object's field list (objects produced by
`JSON.parse` have unique keys). -/
def getField (fields : List (String × Json)) (k : String) : Option Json :=
  (fields.find? (fun p => p.1 == k)).map Prod.snd

def Json.asStr : Json → Option String
  | .str s => some s
  | _ => none

def Json.asNum : Json → Option Int
  | .num n => some n
  | _ => none

def Json.asObj : Json → Option (List (String × Json))
  | .obj f => some f
  | _ => none

def Json.asArr : Json → Option (List Json)
  | .arr xs => some xs
  | _ => none

/-- The zod output type of `EventSchema`: exactly the eight declared fields
(`z.object` strips unknown keys); `payload` is `z.record(z.any())`, an
arbitrary object kept whole. -/
structure InteractionEvent where
  id : String
  type : String
  timestamp : Int
  tabId : Int
  windowId : Int
  url : Option String
  title : Option String
  payload : List (String × Json)

/-- `z.string().optional()` on an object field: an absent key parses to
`none`; a present key must hold a string. -/
def parseOptionalStr (fields : List (String × Json)) (k : String) :
    Option (Option String) :=
  match getField fields k with
  | none => some none
  | some j => j.asStr.map some

/-- `EventSchema.parse`: requires a JSON object with string `id`/`type`,
numeric `timestamp`/`tabId`/`windowId`, optional string `url`/`title`, and
an object-valued `payload`. -/
def parseEvent (j : Json) : Option InteractionEvent :=
  match j with
  | .obj fields =>
      ((getField fields "id").bind Json.asStr).bind fun i =>
      ((getField fields "type").bind Json.asStr).bind fun ty =>
      ((getField fields "timestamp").bind Json.asNum).bind fun ts =>
      ((getField fields "tabId").bind Json.asNum).bind fun tab =>
      ((getField fields "windowId").bind Json.asNum).bind fun win =>
      (parseOptionalStr fields "url").bind fun u =>
      (parseOptionalStr fields "title").bind fun ti =>
      ((getField fields "payload").bind Json.asObj).bind fun pl =>
      some ⟨i, ty, ts, tab, win, u, ti, pl⟩
  | _ => none

/-- `z.array(EventSchema)` applied element-wise; any failing element fails
the whole array. -/
def parseEvents : List Json → Option (List InteractionEvent)
  | [] => some []
  | j :: rest =>
      (parseEvent j).bind fun e =>
      (parseEvents rest).bind fun es => some (e :: es)

/-- The zod output type of `BatchSchema`. -/
structure Batch where
  events : List InteractionEvent
  timestamp : Int

/-- `BatchSchema.parse`: a JSON object with an `events` array of valid
events and a numeric `timestamp`. -/
def parseBatch (j : Json) : Option Batch :=
  match j with
  | .obj fields =>
      ((getField fields "events").bind Json.asArr).bind fun evJson =>
      (parseEvents evJson).bind fun es =>
      ((getField fields "timestamp").bind Json.asNum).bind fun ts =>
      some ⟨es, ts⟩
  | _ => none

/-- The JSON value `JSON.stringify(batch)` serializes for one parsed event:
the eight schema keys in declaration order, absent optionals omitted, the
payload object passed through whole. -/
def eventToJson (e : InteractionEvent) : Json :=
  .obj ([("id", Json.str e.id), ("type", Json.str e.type),
         ("timestamp", Json.num e.timestamp), ("tabId", Json.num e.tabId),
         ("windowId", Json.num e.windowId)]
        ++ (match e.url with | some u => [("url", Json.str u)] | none => [])
        ++ (match e.title with | some t => [("title", Json.str t)] | none => [])
        ++ [("payload", Json.obj e.payload)])

/-- The JSON value `JSON.stringify(batch)` serializes for the parsed batch. -/
def batchToJson (b : Batch) : Json :=
  .obj [("events", Json.arr (b.events.map eventToJson)),
        ("timestamp", Json.num b.timestamp)]

/-- Eventual fate of the spawned pipeline process: it fails to start
(the `error` event) or runs, emitting stdout/stderr chunks, and exits
(the `close` event, with a possibly-null exit code). -/
inductive ProcOutcome : Type where
  | failedToStart (msg : String) : ProcOutcome
  | exited (stdout stderr : List String) (code : Option Int) : ProcOutcome

/-- Console output the handler produces (directly or via the callbacks it
registers on the spawned process). -/
inductive LogEntry : Type where
  | pythonStdout (s : String) : LogEntry
  | pythonStderr (s : String) : LogEntry
  | pythonExited (code : Option Int) : LogEntry
  | pythonError (msg : String) : LogEntry
  | requestError : LogEntry
  | validationErrors : LogEntry

/-- An HTTP response: status code and JSON body. -/
structure HttpResponse where
  status : Nat
  body : Json

/-- `NextResponse.json({success: true, message: ...})` — default status 200. -/
def successResponse : HttpResponse :=
  ⟨200, .obj [("success", Json.bool true),
              ("message", Json.str "Processing started in background")]⟩

/-- The 400 response for a `ZodError`. (Its body additionally carries the
zod issue list under `details`, which no claim mentions and which is not
modelled.) -/
def invalidPayloadResponse : HttpResponse :=
  ⟨400, .obj [("error", Json.str "Invalid payload")]⟩

/-- The generic catch branch's 500 response. -/
def serverErrorResponse : HttpResponse :=
  ⟨500, .obj [("error", Json.str "Internal server error")]⟩

/-- A `spawn` invocation: executable, script path, and the JSON value whose
stringification is passed as the script's argument. -/
structure SpawnCall where
  executable : String
  scriptPath : String
  argJson : Json

/-- Everything observable the handler does: the response it returns, the
process it spawns (if any), and what it logs. -/
structure PostResult where
  response : HttpResponse
  spawned : Option SpawnCall
  logs : List LogEntry

/-- Logs produced by the callbacks registered on the spawned process, as a
function of the process's eventual outcome. -/
def procLogs : ProcOutcome → List LogEntry
  | .failedToStart msg => [.pythonError msg]
  | .exited out err code =>
      out.map LogEntry.pythonStdout ++ err.map LogEntry.pythonStderr
        ++ [.pythonExited code]

/-- The `POST` handler of `src/app/api/interactions/route.ts`.
`body = none` models a request body that is not parseable JSON
(`request.json()` throws a `SyntaxError`, caught by the generic catch);
`venvExists` models `fs.existsSync(venvPython)`; `proc` is the eventual
outcome of the spawned process, which the handler does not await: it only
registers logging callbacks and returns the success response immediately. -/
def POST (body : Option Json) (venvExists : Bool) (proc : ProcOutcome) :
    PostResult :=
  match body with
  | none => ⟨serverErrorResponse, none, [.requestError]⟩
  | some j =>
    match parseBatch j with
    | none => ⟨invalidPayloadResponse, none, [.requestError, .validationErrors]⟩
    | some batch =>
        let exe := if venvExists then "src/server/python/venv/bin/python"
                   else "python3"
        ⟨successResponse,
         some ⟨exe, "src/server/python/group_flows.py", batchToJson batch⟩,
         procLogs proc⟩

/-! ## Claim-side characterization of the batch schema

`validEventSpec` / `validBatchSpec` transcribe the wording of the
validation claim (an object with the listed typed fields), to be compared
against the zod embedding `parseBatch` above. -/

def isStrField (o : Option Json) : Bool :=
  match o with | some (.str _) => true | _ => false

def isNumField (o : Option Json) : Bool :=
  match o with | some (.num _) => true | _ => false

def isObjField (o : Option Json) : Bool :=
  match o with | some (.obj _) => true | _ => false

def isOptStrField (o : Option Json) : Bool :=
  match o with | none => true | some (.str _) => true | _ => false

/-- The claim's event characterization: string `id` and `type`, numeric
`timestamp`, `tabId`, `windowId`, optional string `url` and `title`,
object-valued `payload`. -/
def validEventSpec (j : Json) : Bool :=
  match j with
  | .obj f =>
      isStrField (getField f "id") && isStrField (getField f "type")
        && isNumField (getField f "timestamp")
        && isNumField (getField f "tabId")
        && isNumField (getField f "windowId")
        && isOptStrField (getField f "url")
        && isOptStrField (getField f "title")
        && isObjField (getField f "payload")
  | _ => false

/-- The claim's batch characterization: an object with a numeric
`timestamp` and an `events` array whose every element is a valid event. -/
def validBatchSpec (j : Json) : Bool :=
  match j with
  | .obj f =>
      (match getField f "events" with
       | some (.arr evs) => evs.all validEventSpec
       | _ => false)
        && isNumField (getField f "timestamp")
  | _ => false

/-! ## Workflow-extraction pipeline stages

The pipeline lives in `src/server/python/group_flows.py`, which the
repository slice does not contain (only its caller and a design document
do); the stages below are modelled from the specification. -/

/-- Session summary consumed by the boundary detector (spec §3). -/
structure TabSessionSummary where
  sessionId : String
  tabId : Int
  url : String
  title : String
  activitySummary : String
  viewportSummary : String
  startTs : Int
  endTs : Int
deriving DecidableEq

/-- Modelled from the spec: one step of BoundaryDetector's expanding
window (`group_flows.py`, absent from the slice). Starting from the
current summary, the window grows by one summary at a time while the
continuity predicate holds between consecutive summaries and the budget of
further admissible members is not exhausted; it returns the closed window
together with the unconsumed remainder. -/
def expandWindow (cont : TabSessionSummary → TabSessionSummary → Bool) :
    Nat → TabSessionSummary → List TabSessionSummary →
    List TabSessionSummary × List TabSessionSummary
  | _, cur, [] => ([cur], [])
  | 0, cur, rest => ([cur], rest)
  | budget + 1, cur, nxt :: rest =>
      if cont cur nxt then
        let w := expandWindow cont budget nxt rest
        (cur :: w.1, w.2)
      else ([cur], nxt :: rest)

/-- Modelled from the spec: BoundaryDetector's greedy one-pass scan
(`group_flows.py`, absent from the slice), with explicit fuel for
structural recursion — the remainder left by `expandWindow` never gets
longer, so fuel `xs.length` always suffices (proved below). Each window
starts at the first summary not yet consumed by a prior candidate, expands
under the continuity predicate up to `maxSpan` members, and is emitted as
one candidate's member run. -/
def detectWindowsAux (cont : TabSessionSummary → TabSessionSummary → Bool)
    (maxSpan : Nat) :
    Nat → List TabSessionSummary → List (List TabSessionSummary)
  | _, [] => []
  | 0, _ :: _ => []
  | fuel + 1, s :: rest =>
      let w := expandWindow cont (maxSpan - 1) s rest
      w.1 :: detectWindowsAux cont maxSpan fuel w.2

/-- Modelled from the spec: the complete boundary scan over a batch's
ordered summaries. -/
def detectWindows (cont : TabSessionSummary → TabSessionSummary → Bool)
    (maxSpan : Nat) (summaries : List TabSessionSummary) :
    List (List TabSessionSummary) :=
  detectWindowsAux cont maxSpan summaries.length summaries

/-- A workflow candidate as handed to WorkflowClassifier (spec §3). -/
structure WorkflowCandidate where
  startTs : Int
  endTs : Int
  memberSessionIds : List String
deriving DecidableEq

/-- Modelled from the spec: the candidate a closed window becomes —
its time span and its members' session ids, in order. -/
def mkCandidate (w : List TabSessionSummary) : WorkflowCandidate :=
  { startTs := (w.head?.map TabSessionSummary.startTs).getD 0,
    endTs := (w.getLast?.map TabSessionSummary.endTs).getD 0,
    memberSessionIds := w.map TabSessionSummary.sessionId }

/-- Modelled from the spec: BoundaryDetector — ordered summaries in, one
candidate per closed window out. -/
def boundaryDetector (cont : TabSessionSummary → TabSessionSummary → Bool)
    (maxSpan : Nat) (summaries : List TabSessionSummary) :
    List WorkflowCandidate :=
  (detectWindows cont maxSpan summaries).map mkCandidate

/-- The three-label vocabulary of WorkflowClassifier. -/
inductive WorkflowLabel : Type where
  | WORKFLOW : WorkflowLabel
  | NOISE : WorkflowLabel
  | UNFINISHED : WorkflowLabel
deriving DecidableEq

/-- Modelled from the spec: WorkflowClassifier's validation of the
classification capability's response (`group_flows.py`, absent from the
slice) — an in-vocabulary response string maps to its label, anything
else fail-safes to NOISE. -/
def classifyResponseLabel (resp : String) : WorkflowLabel :=
  if resp = "WORKFLOW" then .WORKFLOW
  else if resp = "NOISE" then .NOISE
  else if resp = "UNFINISHED" then .UNFINISHED
  else .NOISE

/-- A tool-catalog reference: platform plus operation (spec §3). -/
structure ToolRef where
  platform : String
  operation : String
deriving DecidableEq

/-- Step role assigned by StepClassifier. -/
inductive StepRole : Type where
  | tool : StepRole
  | browserContext : StepRole
deriving DecidableEq

/-- One ordered step of a classified workflow (spec §3). -/
structure WorkflowStep where
  order : Nat
  description : String
  role : StepRole
  tool : Option ToolRef
deriving DecidableEq

/-- A finalized workflow as handed to the Deduplicator (spec §3). -/
structure Workflow where
  summary : String
  steps : List WorkflowStep
deriving DecidableEq

/-- Modelled from the spec: `toolSetSignature` — the set of distinct
ToolRefs across a workflow's steps, order-independent. -/
def toolSetSignature (w : Workflow) : Finset ToolRef :=
  (w.steps.filterMap WorkflowStep.tool).toFinset

/-- Modelled from the spec: the Deduplicator's duplicate test — an
incoming workflow is a duplicate iff some previously stored workflow has
an equal tool-set signature. -/
def isDuplicate (stored : List Workflow) (w : Workflow) : Bool :=
  stored.any (fun s => decide (toolSetSignature s = toolSetSignature w))

/-- Modelled from the spec: the Deduplicator's default decision — discard
the incoming workflow if it is a duplicate (existing record wins),
otherwise store it. -/
def dedupSubmit (stored : List Workflow) (w : Workflow) : List Workflow :=
  if isDuplicate stored w then stored else w :: stored

/-! ## Observation helpers and concrete sample inputs -/

/-- Property access on a JSON value (`none` on non-objects). -/
def Json.getProp : Json → String → Option Json
  | .obj f, k => getField f k
  | _, _ => none

/-- The keys of a JSON object, in order (`[]` on non-objects). -/
def Json.topKeys : Json → List String
  | .obj f => f.map Prod.fst
  | _ => []

/-- The eight keys `EventSchema` declares. -/
def eventSchemaKeys : List String :=
  ["id", "type", "timestamp", "tabId", "windowId", "url", "title", "payload"]

/-- A well-formed event body. -/
def sampleEventJson : Json :=
  .obj [("id", .str "e1"), ("type", .str "click"), ("timestamp", .num 5),
        ("tabId", .num 1), ("windowId", .num 2),
        ("payload", .obj [("x", .num 3)])]

/-- A well-formed batch body. -/
def sampleBatchJson : Json :=
  .obj [("events", .arr [sampleEventJson]), ("timestamp", .num 9)]

/-- The parse of `sampleBatchJson`. -/
def sampleBatch : Batch :=
  ⟨[⟨"e1", "click", 5, 1, 2, none, none, [("x", .num 3)]⟩], 9⟩

/-- A well-formed event body carrying an extra, non-schema field
`sessionDepth` and a nested unknown payload key. -/
def extraFieldEventJson : Json :=
  .obj [("id", .str "e2"), ("type", .str "scroll"), ("timestamp", .num 6),
        ("tabId", .num 1), ("windowId", .num 2),
        ("url", .str "https://jira.com"), ("sessionDepth", .num 4),
        ("payload", .obj [("deltaY", .num 120), ("custom", .str "kept")])]

/-- A well-formed batch body whose event has an extra field. -/
def extraFieldBatchJson : Json :=
  .obj [("events", .arr [extraFieldEventJson]), ("timestamp", .num 10)]

/-- The parse of `extraFieldBatchJson`: `sessionDepth` is stripped, the
payload is kept whole. -/
def extraFieldBatch : Batch :=
  ⟨[⟨"e2", "scroll", 6, 1, 2, some "https://jira.com", none,
     [("deltaY", .num 120), ("custom", .str "kept")]⟩], 10⟩

/-- Three sample summaries with distinct session ids. -/
def sampleSummaries : List TabSessionSummary :=
  [⟨"s1", 1, "https://jira.com", "Jira", "created ticket", "board", 0, 4⟩,
   ⟨"s2", 2, "https://slack.com", "Slack", "pasted link", "thread", 5, 8⟩,
   ⟨"s3", 1, "https://news.example", "News", "read article", "page", 60, 90⟩]

/-- A sample continuity predicate: consecutive summaries are continuous
when the temporal gap between them is under 10. -/
def sampleCont (a b : TabSessionSummary) : Bool :=
  decide (b.startTs - a.endTs < 10)

/-- A sample workflow with a Jira and a Slack tool step. -/
def sampleWorkflow : Workflow :=
  ⟨"file a Jira ticket from a Slack thread",
   [⟨0, "created ticket", .tool, some ⟨"Jira", "createIssue"⟩⟩,
    ⟨1, "pasted link in thread", .tool, some ⟨"Slack", "postMessage"⟩⟩]⟩

/-! ## Basic parsing lemmas -/

theorem Json.asStr_eq_some {j : Json} {s : String} :
    j.asStr = some s ↔ j = .str s := by
  cases j <;> simp [Json.asStr]

theorem Json.asNum_eq_some {j : Json} {n : Int} :
    j.asNum = some n ↔ j = .num n := by
  cases j <;> simp [Json.asNum]

theorem Json.asObj_eq_some {j : Json} {f : List (String × Json)} :
    j.asObj = some f ↔ j = .obj f := by
  cases j <;> simp [Json.asObj]

theorem Json.asArr_eq_some {j : Json} {xs : List Json} :
    j.asArr = some xs ↔ j = .arr xs := by
  cases j <;> simp [Json.asArr]

theorem isStrField_eq_isSome (o : Option Json) :
    isStrField o = (o.bind Json.asStr).isSome := by
  cases o with
  | none => rfl
  | some j => cases j <;> rfl

theorem isNumField_eq_isSome (o : Option Json) :
    isNumField o = (o.bind Json.asNum).isSome := by
  cases o with
  | none => rfl
  | some j => cases j <;> rfl

theorem isObjField_eq_isSome (o : Option Json) :
    isObjField o = (o.bind Json.asObj).isSome := by
  cases o with
  | none => rfl
  | some j => cases j <;> rfl

theorem parseOptionalStr_isSome (f : List (String × Json)) (k : String) :
    (parseOptionalStr f k).isSome = isOptStrField (getField f k) := by
  unfold parseOptionalStr
  cases getField f k with
  | none => rfl
  | some j => cases j <;> rfl

/-- The zod event parse succeeds exactly on the events the claim's
characterization accepts. -/
theorem parseEvent_isSome (j : Json) :
    (parseEvent j).isSome = validEventSpec j := by
  cases j <;> simp only [parseEvent, validEventSpec, Option.isSome_none]
  case obj f =>
    rw [isStrField_eq_isSome, isStrField_eq_isSome, isNumField_eq_isSome,
        isNumField_eq_isSome, isNumField_eq_isSome,
        ← parseOptionalStr_isSome f "url", ← parseOptionalStr_isSome f "title",
        isObjField_eq_isSome]
    cases h1 : (getField f "id").bind Json.asStr <;>
      cases h2 : (getField f "type").bind Json.asStr <;>
      cases h3 : (getField f "timestamp").bind Json.asNum <;>
      cases h4 : (getField f "tabId").bind Json.asNum <;>
      cases h5 : (getField f "windowId").bind Json.asNum <;>
      cases h6 : parseOptionalStr f "url" <;>
      cases h7 : parseOptionalStr f "title" <;>
      cases h8 : (getField f "payload").bind Json.asObj <;>
      simp only [Option.none_bind, Option.some_bind, Option.isSome_none,
        Option.isSome_some, Bool.false_and, Bool.true_and, Bool.and_false,
        Bool.and_true]

/-- The element-wise array parse succeeds exactly when every element is a
valid event. -/
theorem parseEvents_isSome (l : List Json) :
    (parseEvents l).isSome = l.all validEventSpec := by
  induction l with
  | nil => rfl
  | cons j rest ih =>
      rw [List.all_cons, ← parseEvent_isSome j, ← ih]
      cases hj : parseEvent j <;> cases hr : parseEvents rest <;>
        simp [parseEvents, hj, hr]

/-- Helper: the batch parse succeeds exactly on the bodies the claim's
characterization accepts. -/
theorem parseBatch_isSome (j : Json) :
    (parseBatch j).isSome = validBatchSpec j := by
  cases j <;> simp only [parseBatch, validBatchSpec, Option.isSome_none]
  case obj f =>
    cases hev : getField f "events" with
    | none => simp
    | some je =>
        cases je <;> simp only [Json.asArr, Option.none_bind, Option.some_bind,
          Option.isSome_none, Bool.false_and]
        case arr evs =>
          rw [← parseEvents_isSome, isNumField_eq_isSome]
          cases hes : parseEvents evs <;>
            cases hts : (getField f "timestamp").bind Json.asNum <;>
            simp

/-! ## Claim C4 — batch-schema characterization -/

/-- C4: a POST body passes `BatchSchema` validation if and only if it is a
JSON object with a numeric `timestamp` and an `events` array in which
every element has string `id` and `type`, numeric `timestamp`, `tabId` and
`windowId`, optional string `url` and `title`, and an object-valued
`payload` mapping. -/
theorem batch_validation_characterization (j : Json) :
    (parseBatch j).isSome = validBatchSpec j :=
  parseBatch_isSome j

/-! ## Claim C1 — malformed bodies are rejected before the pipeline -/

/-- C1: a POST body that parses as JSON but fails the batch schema is
rejected before any pipeline stage runs — no process is spawned and the
response status is 400. -/
theorem invalid_batch_rejected_before_pipeline
    (j : Json) (venvExists : Bool) (proc : ProcOutcome)
    (h : parseBatch j = none) :
    (POST (some j) venvExists proc).spawned = none ∧
    (POST (some j) venvExists proc).response.status = 400 := by
  simp [POST, h, invalidPayloadResponse]

/-- Witness for C1: the empty object is missing every batch field. -/
theorem invalid_batch_rejected_before_pipeline_witness :
    (POST (some (Json.obj [])) true
        (ProcOutcome.exited [] [] (some 0))).spawned = none ∧
    (POST (some (Json.obj [])) true
        (ProcOutcome.exited [] [] (some 0))).response.status = 400 :=
  invalid_batch_rejected_before_pipeline (Json.obj []) true
    (ProcOutcome.exited [] [] (some 0)) rfl

/-! ## Claim C10 — status characterization and totality -/

/-- C10: the handler responds 400 exactly when the body parses as JSON but
fails batch validation; a body that is not parseable JSON takes the
generic catch branch and yields the 500 response; every request receives a
response (status 200, 400 or 500), no exception escaping. -/
theorem status_characterization (venvExists : Bool) (proc : ProcOutcome) :
    (POST none venvExists proc).response = serverErrorResponse ∧
    serverErrorResponse.status = 500 ∧
    ∀ j : Json,
      ((POST (some j) venvExists proc).response.status = 400 ↔
        parseBatch j = none) ∧
      ((POST (some j) venvExists proc).response.status = 200 ↔
        (parseBatch j).isSome = true) ∧
      ((POST (some j) venvExists proc).response.status = 400 ∨
        (POST (some j) venvExists proc).response.status = 200) := by
  refine ⟨rfl, rfl, fun j => ?_⟩
  cases h : parseBatch j <;>
    simp [POST, h, invalidPayloadResponse, successResponse]

/-! ## Claim C8 — the response never depends on the pipeline's fate -/

/-- C8: for every structurally valid batch the handler returns the fixed
success response (`{success: true, message: "Processing started in
background"}`, status 200) without awaiting the spawned process — the
response is identical across every process outcome. -/
theorem response_independent_of_pipeline
    (j : Json) (b : Batch) (venvExists : Bool)
    (h : parseBatch j = some b) (proc1 proc2 : ProcOutcome) :
    (POST (some j) venvExists proc1).response
      = (POST (some j) venvExists proc2).response ∧
    (POST (some j) venvExists proc1).response = successResponse ∧
    successResponse.status = 200 ∧
    successResponse.body
      = Json.obj [("success", Json.bool true),
                  ("message", Json.str "Processing started in background")] := by
  refine ⟨?_, ?_, rfl, rfl⟩ <;> simp [POST, h]

/-- Witness for C8: a concrete valid batch, compared across a clean exit
and a failed spawn. -/
theorem response_independent_of_pipeline_witness :
    (POST (some sampleBatchJson) true
        (ProcOutcome.exited ["ok"] [] (some 0))).response
      = (POST (some sampleBatchJson) true
          (ProcOutcome.failedToStart "spawn ENOENT")).response ∧
    (POST (some sampleBatchJson) true
        (ProcOutcome.exited ["ok"] [] (some 0))).response = successResponse ∧
    successResponse.status = 200 ∧
    successResponse.body
      = Json.obj [("success", Json.bool true),
                  ("message", Json.str "Processing started in background")] :=
  response_independent_of_pipeline sampleBatchJson sampleBatch true rfl
    (ProcOutcome.exited ["ok"] [] (some 0))
    (ProcOutcome.failedToStart "spawn ENOENT")

/-! ## Claim C3 — post-ingestion failures are NOT surfaced (corrected) -/

/-- Counterexample to C3 as stated: a structurally valid, accepted batch
whose pipeline process exits non-zero (code 1, a stderr traceback) still
receives the plain success response — status 200, no `error` member — so
the failure is not surfaced to the caller as a batch-level failure in the
ingestion response. -/
theorem pipeline_failure_not_surfaced :
    parseBatch sampleBatchJson = some sampleBatch ∧
    (POST (some sampleBatchJson) true
        (ProcOutcome.exited [] ["Traceback"] (some 1))).response
      = successResponse ∧
    (POST (some sampleBatchJson) true
        (ProcOutcome.exited [] ["Traceback"] (some 1))).response.status = 200 ∧
    (POST (some sampleBatchJson) true
        (ProcOutcome.exited [] ["Traceback"] (some 1))).response.body.getProp
        "error" = none :=
  ⟨rfl, rfl, rfl, rfl⟩

/-- C3 amended: a failure after ingestion is never surfaced in the
ingestion response — the handler has already produced the fixed success
response for every valid batch whatever the pipeline outcome, and the
failure is recorded only in the server logs (the exit code, or the spawn
error message). -/
theorem pipeline_failure_only_logged
    (j : Json) (b : Batch) (venvExists : Bool)
    (h : parseBatch j = some b) :
    (∀ (out err : List String) (code : Option Int),
      (POST (some j) venvExists (.exited out err code)).response
        = successResponse ∧
      LogEntry.pythonExited code
        ∈ (POST (some j) venvExists (.exited out err code)).logs) ∧
    (∀ msg : String,
      (POST (some j) venvExists (.failedToStart msg)).response
        = successResponse ∧
      LogEntry.pythonError msg
        ∈ (POST (some j) venvExists (.failedToStart msg)).logs) := by
  constructor
  · intro out err code
    simp [POST, h, procLogs]
  · intro msg
    simp [POST, h, procLogs]

/-- Witness for the amended C3: a non-zero pipeline exit and a failed
spawn on a concrete valid batch. -/
theorem pipeline_failure_only_logged_witness :
    (POST (some sampleBatchJson) true
        (.exited [] ["Traceback"] (some 1))).response = successResponse ∧
    LogEntry.pythonExited (some 1)
      ∈ (POST (some sampleBatchJson) true
          (.exited [] ["Traceback"] (some 1))).logs ∧
    (POST (some sampleBatchJson) true
        (.failedToStart "spawn ENOENT")).response = successResponse ∧
    LogEntry.pythonError "spawn ENOENT"
      ∈ (POST (some sampleBatchJson) true
          (.failedToStart "spawn ENOENT")).logs := by
  obtain ⟨h1, h2⟩ :=
    pipeline_failure_only_logged sampleBatchJson sampleBatch true rfl
  exact ⟨(h1 [] ["Traceback"] (some 1)).1, (h1 [] ["Traceback"] (some 1)).2,
    (h2 "spawn ENOENT").1, (h2 "spawn ENOENT").2⟩

/-! ## Payload forwarding lemmas -/

/-- A successfully parsed event's payload is exactly the `payload` object
of its request-body source. -/
theorem parseEvent_payload {j : Json} {e : InteractionEvent}
    (h : parseEvent j = some e) :
    j.getProp "payload" = some (.obj e.payload) := by
  cases j with
  | obj f =>
      simp only [parseEvent, Option.bind_eq_some, Option.some.injEq] at h
      obtain ⟨i, ⟨j1, hj1, hs1⟩, ty, ⟨j2, hj2, hs2⟩, ts, ⟨j3, hj3, hs3⟩,
        tab, ⟨j4, hj4, hs4⟩, win, ⟨j5, hj5, hs5⟩, u, hu, ti, hti,
        pl, ⟨jp, hjp, hjo⟩, he⟩ := h
      rw [Json.asObj_eq_some] at hjo
      subst hjo
      subst he
      simpa [Json.getProp] using hjp
  | null => simp [parseEvent] at h
  | bool b => simp [parseEvent] at h
  | num n => simp [parseEvent] at h
  | str s => simp [parseEvent] at h
  | arr xs => simp [parseEvent] at h

/-- Parsed event lists correspond element-wise to their sources. -/
theorem parseEvents_forall₂ :
    ∀ {l : List Json} {es : List InteractionEvent},
      parseEvents l = some es →
      List.Forall₂ (fun j e => parseEvent j = some e) l es := by
  intro l
  induction l with
  | nil =>
      intro es h
      simp only [parseEvents, Option.some.injEq] at h
      subst h
      exact List.Forall₂.nil
  | cons j rest ih =>
      intro es h
      simp only [parseEvents, Option.bind_eq_some, Option.some.injEq] at h
      obtain ⟨e, he, es', hes', rfl⟩ := h
      exact List.Forall₂.cons he (ih hes')

/-- The serialized form of a parsed event carries its payload whole. -/
theorem eventToJson_payload (e : InteractionEvent) :
    (eventToJson e).getProp "payload" = some (.obj e.payload) := by
  rcases e with ⟨i, ty, ts, tab, win, u, ti, pl⟩
  cases u <;> cases ti <;> rfl

/-- The serialized form of a parsed event mentions only the eight schema
keys. -/
theorem eventToJson_topKeys (e : InteractionEvent) :
    (eventToJson e).topKeys ⊆ eventSchemaKeys := by
  rcases e with ⟨i, ty, ts, tab, win, u, ti, pl⟩
  cases u <;> cases ti <;>
    simp [eventToJson, Json.topKeys, eventSchemaKeys, List.subset_def]

/-- Decomposition of a successful batch parse: the body is an object whose
`events` array parses element-wise to the batch's events. -/
theorem parseBatch_some_elim {j : Json} {b : Batch}
    (h : parseBatch j = some b) :
    ∃ evs, j.getProp "events" = some (.arr evs) ∧
      parseEvents evs = some b.events := by
  cases j with
  | obj f =>
      simp only [parseBatch, Option.bind_eq_some, Option.some.injEq] at h
      obtain ⟨evs, ⟨je, hje, hja⟩, es, hes, ts, hts, hb⟩ := h
      rw [Json.asArr_eq_some] at hja
      subst hja
      subst hb
      exact ⟨evs, by simpa [Json.getProp] using hje, hes⟩
  | null => simp [parseBatch] at h
  | bool x => simp [parseBatch] at h
  | num n => simp [parseBatch] at h
  | str s => simp [parseBatch] at h
  | arr xs => simp [parseBatch] at h

/-! ## Claim C2 — payloads are forwarded unmodified -/

/-- C2: for every structurally valid batch, the JSON value whose
stringification is passed as the spawned process's argument contains, for
every event, a payload equal key-for-key and value-for-value to the
payload in the request body. -/
theorem payload_forwarded_unmodified
    (j : Json) (b : Batch) (venvExists : Bool) (proc : ProcOutcome)
    (h : parseBatch j = some b) :
    ∃ sc, (POST (some j) venvExists proc).spawned = some sc ∧
      sc.argJson = batchToJson b ∧
      sc.argJson.getProp "events"
        = some (.arr (b.events.map eventToJson)) ∧
      ∃ evs, j.getProp "events" = some (.arr evs) ∧
        List.Forall₂
          (fun ej e => ej.getProp "payload" = some (.obj e.payload) ∧
            (eventToJson e).getProp "payload" = some (.obj e.payload))
          evs b.events := by
  obtain ⟨evs, hevs, hes⟩ := parseBatch_some_elim h
  refine ⟨⟨if venvExists then "src/server/python/venv/bin/python"
           else "python3", "src/server/python/group_flows.py",
           batchToJson b⟩, ?_, rfl, rfl, evs, hevs, ?_⟩
  · simp [POST, h]
  · exact (parseEvents_forall₂ hes).imp
      (fun ej e hje => ⟨parseEvent_payload hje, eventToJson_payload e⟩)

/-- Witness for C2: a concrete one-event batch. -/
theorem payload_forwarded_unmodified_witness :
    ∃ sc, (POST (some sampleBatchJson) true
        (ProcOutcome.exited [] [] (some 0))).spawned = some sc ∧
      sc.argJson = batchToJson sampleBatch ∧
      sc.argJson.getProp "events"
        = some (.arr (sampleBatch.events.map eventToJson)) ∧
      ∃ evs, sampleBatchJson.getProp "events" = some (.arr evs) ∧
        List.Forall₂
          (fun ej e => ej.getProp "payload" = some (.obj e.payload) ∧
            (eventToJson e).getProp "payload" = some (.obj e.payload))
          evs sampleBatch.events :=
  payload_forwarded_unmodified sampleBatchJson sampleBatch true
    (ProcOutcome.exited [] [] (some 0)) rfl

/-! ## Claim C9 — unknown event fields stripped, payload keys preserved -/

/-- C9: for every structurally valid batch, event fields outside the eight
schema keys are stripped by validation and absent from the JSON handed to
the pipeline process (each serialized event's keys are among the eight),
while the keys nested inside `payload` are passed through whole. -/
theorem unknown_event_fields_stripped
    (j : Json) (b : Batch) (venvExists : Bool) (proc : ProcOutcome)
    (h : parseBatch j = some b) :
    ∃ sc, (POST (some j) venvExists proc).spawned = some sc ∧
      sc.argJson.getProp "events"
        = some (.arr (b.events.map eventToJson)) ∧
      (∀ e ∈ b.events, (eventToJson e).topKeys ⊆ eventSchemaKeys) ∧
      ∃ evs, j.getProp "events" = some (.arr evs) ∧
        List.Forall₂
          (fun ej e =>
            (∀ k, k ∈ ej.topKeys → k ∉ eventSchemaKeys →
              k ∉ (eventToJson e).topKeys) ∧
            ej.getProp "payload" = some (.obj e.payload) ∧
            (eventToJson e).getProp "payload" = some (.obj e.payload))
          evs b.events := by
  obtain ⟨evs, hevs, hes⟩ := parseBatch_some_elim h
  refine ⟨⟨if venvExists then "src/server/python/venv/bin/python"
           else "python3", "src/server/python/group_flows.py",
           batchToJson b⟩, ?_, rfl,
          fun e _ => eventToJson_topKeys e, evs, hevs, ?_⟩
  · simp [POST, h]
  · exact (parseEvents_forall₂ hes).imp
      (fun ej e hje =>
        ⟨fun k _ hknot hkmem => hknot (eventToJson_topKeys e hkmem),
         parseEvent_payload hje, eventToJson_payload e⟩)

/-- Witness for C9: a concrete batch whose event carries an extra
`sessionDepth` field and an unknown nested payload key. -/
theorem unknown_event_fields_stripped_witness :
    ∃ sc, (POST (some extraFieldBatchJson) true
        (ProcOutcome.exited [] [] (some 0))).spawned = some sc ∧
      sc.argJson.getProp "events"
        = some (.arr (extraFieldBatch.events.map eventToJson)) ∧
      (∀ e ∈ extraFieldBatch.events,
        (eventToJson e).topKeys ⊆ eventSchemaKeys) ∧
      ∃ evs, extraFieldBatchJson.getProp "events" = some (.arr evs) ∧
        List.Forall₂
          (fun ej e =>
            (∀ k, k ∈ ej.topKeys → k ∉ eventSchemaKeys →
              k ∉ (eventToJson e).topKeys) ∧
            ej.getProp "payload" = some (.obj e.payload) ∧
            (eventToJson e).getProp "payload" = some (.obj e.payload))
          evs extraFieldBatch.events :=
  unknown_event_fields_stripped extraFieldBatchJson extraFieldBatch true
    (ProcOutcome.exited [] [] (some 0)) rfl

/-! ## Expanding-window lemmas -/

/-- A closed window and its remainder together are exactly the consumed
segment of the summary sequence. -/
theorem expandWindow_append
    (cont : TabSessionSummary → TabSessionSummary → Bool) :
    ∀ (budget : Nat) (cur : TabSessionSummary)
      (rest : List TabSessionSummary),
      (expandWindow cont budget cur rest).1
        ++ (expandWindow cont budget cur rest).2 = cur :: rest := by
  intro budget
  induction budget with
  | zero =>
      intro cur rest
      cases rest <;> simp [expandWindow]
  | succ b ih =>
      intro cur rest
      cases rest with
      | nil => simp [expandWindow]
      | cons nxt tl =>
          by_cases h : cont cur nxt = true
          · simp [expandWindow, h, ih nxt tl]
          · simp [expandWindow, h]

/-- A window always contains at least its starting summary. -/
theorem expandWindow_fst_cons
    (cont : TabSessionSummary → TabSessionSummary → Bool) :
    ∀ (budget : Nat) (cur : TabSessionSummary)
      (rest : List TabSessionSummary),
      ∃ t, (expandWindow cont budget cur rest).1 = cur :: t := by
  intro budget
  induction budget with
  | zero =>
      intro cur rest
      cases rest <;> exact ⟨_, rfl⟩
  | succ b ih =>
      intro cur rest
      cases rest with
      | nil => exact ⟨_, rfl⟩
      | cons nxt tl =>
          by_cases h : cont cur nxt = true
          · obtain ⟨t, ht⟩ := ih nxt tl
            exact ⟨nxt :: t, by simp [expandWindow, h, ht]⟩
          · exact ⟨[], by simp [expandWindow, h]⟩

/-- The remainder never grows. -/
theorem expandWindow_snd_length_le
    (cont : TabSessionSummary → TabSessionSummary → Bool)
    (budget : Nat) (cur : TabSessionSummary)
    (rest : List TabSessionSummary) :
    (expandWindow cont budget cur rest).2.length ≤ rest.length := by
  obtain ⟨t, ht⟩ := expandWindow_fst_cons cont budget cur rest
  have happ := expandWindow_append cont budget cur rest
  have hlen : ((expandWindow cont budget cur rest).1
      ++ (expandWindow cont budget cur rest).2).length
      = (cur :: rest).length := by rw [happ]
  rw [ht] at hlen
  simp at hlen
  omega

/-- With enough fuel, the emitted windows concatenate back to the input
summary sequence. -/
theorem detectWindowsAux_flatten
    (cont : TabSessionSummary → TabSessionSummary → Bool) (maxSpan : Nat) :
    ∀ (fuel : Nat) (xs : List TabSessionSummary), xs.length ≤ fuel →
      (detectWindowsAux cont maxSpan fuel xs).flatten = xs := by
  intro fuel
  induction fuel with
  | zero =>
      intro xs h
      cases xs with
      | nil => rfl
      | cons s rest => simp at h
  | succ n ih =>
      intro xs h
      cases xs with
      | nil => rfl
      | cons s rest =>
          simp only [detectWindowsAux, List.flatten_cons]
          have hlen : (expandWindow cont (maxSpan - 1) s rest).2.length ≤ n :=
            le_trans (expandWindow_snd_length_le cont (maxSpan - 1) s rest)
              (by simpa using Nat.le_of_succ_le_succ h)
          rw [ih _ hlen, expandWindow_append]

/-- The boundary scan's windows concatenate back to the batch's summary
sequence. -/
theorem detectWindows_flatten
    (cont : TabSessionSummary → TabSessionSummary → Bool) (maxSpan : Nat)
    (xs : List TabSessionSummary) :
    (detectWindows cont maxSpan xs).flatten = xs :=
  detectWindowsAux_flatten cont maxSpan xs.length xs (Nat.le_refl _)

/-! ## Claim C5 — candidates partition the summary sequence -/

/-- C5: for any ordered summary sequence of a batch (session ids distinct,
as one summary exists per session), BoundaryDetector's candidates have
pairwise disjoint member sets and their members, concatenated in order,
are exactly the full summary sequence — no summary dropped, none
double-counted. -/
theorem boundaryDetector_partition
    (cont : TabSessionSummary → TabSessionSummary → Bool) (maxSpan : Nat)
    (xs : List TabSessionSummary)
    (hnd : (xs.map TabSessionSummary.sessionId).Nodup) :
    ((boundaryDetector cont maxSpan xs).map
        WorkflowCandidate.memberSessionIds).flatten
      = xs.map TabSessionSummary.sessionId ∧
    List.Pairwise (fun a b => ∀ x ∈ a, x ∉ b)
      ((boundaryDetector cont maxSpan xs).map
        WorkflowCandidate.memberSessionIds) := by
  have hmap : (boundaryDetector cont maxSpan xs).map
      WorkflowCandidate.memberSessionIds
      = (detectWindows cont maxSpan xs).map
          (List.map TabSessionSummary.sessionId) := by
    simp [boundaryDetector, mkCandidate]
  have hflat : ((detectWindows cont maxSpan xs).map
      (List.map TabSessionSummary.sessionId)).flatten
      = xs.map TabSessionSummary.sessionId := by
    rw [← List.map_flatten, detectWindows_flatten]
  refine ⟨by rw [hmap, hflat], ?_⟩
  rw [hmap]
  have hjn : (((detectWindows cont maxSpan xs).map
      (List.map TabSessionSummary.sessionId)).flatten).Nodup := by
    rw [hflat]; exact hnd
  have hpw := (List.nodup_flatten.mp hjn).2
  exact hpw.imp (fun hd x hx1 hx2 => hd hx1 hx2)

/-- Witness for C5: three concrete summaries with distinct session ids
under a temporal-gap continuity predicate. -/
theorem boundaryDetector_partition_witness :
    ((boundaryDetector sampleCont 5 sampleSummaries).map
        WorkflowCandidate.memberSessionIds).flatten
      = sampleSummaries.map TabSessionSummary.sessionId ∧
    List.Pairwise (fun a b => ∀ x ∈ a, x ∉ b)
      ((boundaryDetector sampleCont 5 sampleSummaries).map
        WorkflowCandidate.memberSessionIds) :=
  boundaryDetector_partition sampleCont 5 sampleSummaries (by decide)

/-! ## Claim C6 — out-of-vocabulary labels fail safe to NOISE -/

/-- C6: WorkflowClassifier's label always lies in the three-label codomain
`{WORKFLOW, NOISE, UNFINISHED}` (the type of `classifyResponseLabel`), and
a classification-capability response outside that vocabulary is assigned
NOISE — never WORKFLOW. -/
theorem classifier_label_fail_safe (resp : String)
    (h : resp ≠ "WORKFLOW" ∧ resp ≠ "NOISE" ∧ resp ≠ "UNFINISHED") :
    classifyResponseLabel resp = WorkflowLabel.NOISE ∧
    classifyResponseLabel resp ≠ WorkflowLabel.WORKFLOW := by
  obtain ⟨h1, h2, h3⟩ := h
  constructor
  · simp [classifyResponseLabel, h1, h2, h3]
  · simp [classifyResponseLabel, h1, h2, h3]

/-- Witness for C6: a response outside the vocabulary. -/
theorem classifier_label_fail_safe_witness :
    classifyResponseLabel "maybe-workflow" = WorkflowLabel.NOISE ∧
    classifyResponseLabel "maybe-workflow" ≠ WorkflowLabel.WORKFLOW :=
  classifier_label_fail_safe "maybe-workflow" (by decide)

/-! ## Claim C7 — the Deduplicator is idempotent on signatures -/

/-- C7: submitting the same workflow twice yields at most one stored
record with its tool-set signature — starting from a store without that
signature, the first submission stores the workflow and the second is
discarded as a duplicate, leaving exactly one record whose signature
matches. -/
theorem dedup_idempotent (stored : List Workflow) (w : Workflow)
    (h : stored.countP
        (fun s => decide (toolSetSignature s = toolSetSignature w)) = 0) :
    dedupSubmit (dedupSubmit stored w) w = w :: stored ∧
    (dedupSubmit (dedupSubmit stored w) w).countP
        (fun s => decide (toolSetSignature s = toolSetSignature w)) = 1 := by
  have hnone : isDuplicate stored w = false := by
    rw [List.countP_eq_zero] at h
    simp only [isDuplicate, List.any_eq_false]
    intro s hs
    simpa using h s hs
  have hfirst : dedupSubmit stored w = w :: stored := by
    simp [dedupSubmit, hnone]
  have hdup : isDuplicate (w :: stored) w = true := by
    simp [isDuplicate]
  rw [hfirst]
  constructor
  · simp [dedupSubmit, hdup]
  · rw [List.countP_eq_zero] at h
    simp only [dedupSubmit, hdup, if_true, List.countP_cons, decide_eq_true_eq]
    rw [List.countP_eq_zero.mpr (by intro s hs; simpa using h s hs)]

/-- Witness for C7: a two-step Jira/Slack workflow submitted twice to an
empty store. -/
theorem dedup_idempotent_witness :
    dedupSubmit (dedupSubmit [] sampleWorkflow) sampleWorkflow
      = [sampleWorkflow] ∧
    (dedupSubmit (dedupSubmit [] sampleWorkflow) sampleWorkflow).countP
        (fun s => decide (toolSetSignature s
          = toolSetSignature sampleWorkflow)) = 1 :=
  dedup_idempotent [] sampleWorkflow (by simp)

end WorkflowHandler
